import Mathlib

/-!
Verification of the background-execution core and keyring UDF plugin of the
percona-server repository.  Definitions are shallow embeddings of the C++
sources; where only declarations are available under src, the behaviour is
modelled from the specification (such definitions carry a doc comment that
begins with "Modelled from the spec:").
-/

namespace KeyringUdf

/-- Item result type tags of UDF arguments, as used in
plugin/keyring_udf/keyring_udf.cc via the MySQL UDF API. -/
inductive Item_result where
  | string_result
  | int_result
  | real_result
  | decimal_result
deriving DecidableEq

/-- MAX_KEYRING_UDF_KEY_TEXT_LENGTH (= MAX_KEYRING_UDF_KEY_LENGTH = 16384). -/
def MAX_KEYRING_UDF_KEY_TEXT_LENGTH : Int := 16384

/-- Flag VALIDATE_KEY of enum what_to_validate. -/
def VALIDATE_KEY : Nat := 1

/-- Flag VALIDATE_KEY_ID of enum what_to_validate. -/
def VALIDATE_KEY_ID : Nat := 2

/-- Flag VALIDATE_KEY_TYPE of enum what_to_validate. -/
def VALIDATE_KEY_TYPE : Nat := 4

/-- Flag VALIDATE_KEY_LENGTH of enum what_to_validate. -/
def VALIDATE_KEY_LENGTH : Nat := 8

/-- get_args_count_from_validation_request: counts the bits set in the
to_validate bit mask by repeated shift (the claims restrict attention to
non-negative masks, so the argument is a Nat). -/
def get_args_count_from_validation_request (to_validate : Nat) : Nat :=
  if h : to_validate = 0 then 0
  else
    (if to_validate % 2 = 1 then 1 else 0) +
      get_args_count_from_validation_request (to_validate / 2)
decreasing_by exact Nat.div_lt_self (Nat.pos_of_ne_zero h) (by omega)

/-- One UDF argument slot: whether args.args at this index is a null pointer,
the arg_type tag, and the long long value read when the argument is an
INT_RESULT (only used for the key length). -/
structure UdfArg where
  isNull : Bool
  argType : Item_result
  intVal : Int
deriving DecidableEq

/-- Default used when reading an argument slot out of range (the six UDFs
never do for well-formed argument counts). -/
def defaultArg : UdfArg :=
  { isNull := true, argType := Item_result.string_result, intVal := 0 }

/-- The condition args.args at index i is null or not a STRING_RESULT. -/
def argBadString (args : List UdfArg) (i : Nat) : Bool :=
  (args.getD i defaultArg).isNull ||
    (args.getD i defaultArg).argType != Item_result.string_result

/-- The condition args.args at index i is null or not an INT_RESULT. -/
def argBadInt (args : List UdfArg) (i : Nat) : Bool :=
  (args.getD i defaultArg).isNull ||
    (args.getD i defaultArg).argType != Item_result.int_result

/-- Ambient state consulted by validate: whether the keyring_udf plugin is
initialized, whether obtaining the security context fails (an external
collaborator failure), and whether the invoking user holds the EXECUTE
privilege. -/
structure ValidateCtx where
  is_keyring_udf_initialized : Bool
  secCtxFail : Bool
  has_current_user_execute_privilege : Bool
deriving DecidableEq

/-- Result of validate: ok models returning false; fail models returning
true, carrying the diagnostic written into the message buffer when one is
written. -/
inductive ValidateResult where
  | ok
  | fail (message : Option String)
deriving DecidableEq

/-- Shallow embedding of validate from keyring_udf.cc: the sequential chain
of checks, in source order, each returning true with the diagnostic it
strcpy/sprintf writes into message. -/
def validate (ctx : ValidateCtx) (args : List UdfArg)
    (expected_arg_count : Nat) (to_validate : Nat) : ValidateResult :=
  if ctx.is_keyring_udf_initialized = false then
    ValidateResult.fail (some
      "This function requires keyring_udf plugin which is not installed. Please install keyring_udf plugin and try again.")
  else if ctx.secCtxFail = true then
    ValidateResult.fail none
  else if ctx.has_current_user_execute_privilege = false then
    ValidateResult.fail (some
      "The user is not privileged to execute this function. User needs to have EXECUTE permission.")
  else if args.length ≠ expected_arg_count then
    ValidateResult.fail (some "Mismatch in number of arguments to the function.")
  else if to_validate &&& VALIDATE_KEY_ID ≠ 0 ∧ argBadString args 0 = true then
    ValidateResult.fail (some
      "Mismatch encountered. A string argument is expected for key id.")
  else if to_validate &&& VALIDATE_KEY_TYPE ≠ 0 ∧ argBadString args 1 = true then
    ValidateResult.fail (some
      "Mismatch encountered. A string argument is expected for key type.")
  else if to_validate &&& VALIDATE_KEY_LENGTH ≠ 0 ∧ argBadInt args 2 = true then
    ValidateResult.fail (some
      "Mismatch encountered. An integer argument is expected for key length.")
  else if to_validate &&& VALIDATE_KEY_LENGTH ≠ 0 ∧
      (args.getD 2 defaultArg).intVal > MAX_KEYRING_UDF_KEY_TEXT_LENGTH then
    ValidateResult.fail (some
      "The key is to long. The max length of the key is 16384")
  else if to_validate &&& VALIDATE_KEY ≠ 0 ∧ argBadString args 2 = true then
    ValidateResult.fail (some
      "Mismatch encountered. A string argument is expected for key.")
  else ValidateResult.ok

/-- Outcome of keyring_udf_func_init: whether it returned true (failure),
the diagnostic message written (if any), whether initid.ptr was left
allocated, and the maybe_null flag. -/
structure UdfInitResult where
  failed : Bool
  message : Option String
  ptrAllocated : Bool
  maybe_null : Bool
deriving DecidableEq

/-- Shallow embedding of keyring_udf_func_init: computes the expected
argument count from the validation mask, runs validate, then (on success)
allocates size_of_memory_to_allocate bytes for initid.ptr; allocSucceeds
models the std::nothrow new result. -/
def keyring_udf_func_init (ctx : ValidateCtx) (args : List UdfArg)
    (to_validate : Nat) (allocSucceeds : Bool)
    (size_of_memory_to_allocate : Nat) : UdfInitResult :=
  let expected_arg_count := get_args_count_from_validation_request to_validate
  match validate ctx args expected_arg_count to_validate with
  | ValidateResult.fail m =>
      { failed := true, message := m, ptrAllocated := false, maybe_null := false }
  | ValidateResult.ok =>
      if size_of_memory_to_allocate ≠ 0 ∧ allocSucceeds = false then
        { failed := true, message := none, ptrAllocated := false,
          maybe_null := true }
      else
        { failed := false, message := none,
          ptrAllocated := decide (size_of_memory_to_allocate ≠ 0),
          maybe_null := true }

/-- Modelled from the spec: the MySQL UDF dispatch (not under src) calls the
main UDF function, which is what invokes the key-store service
(my_key_store, my_key_fetch, my_key_remove, my_key_generate), only when the
init function returned false; so the service is reached exactly when
keyring_udf_func_init succeeds. -/
def reaches_key_store_service (ctx : ValidateCtx) (args : List UdfArg)
    (to_validate : Nat) (allocSucceeds : Bool)
    (size_of_memory_to_allocate : Nat) : Bool :=
  !(keyring_udf_func_init ctx args to_validate allocSucceeds
      size_of_memory_to_allocate).failed

/-- Validation mask of keyring_key_store_init. -/
def storeMask : Nat := VALIDATE_KEY_ID ||| VALIDATE_KEY_TYPE ||| VALIDATE_KEY

/-- Validation mask of keyring_key_fetch_init, keyring_key_type_fetch_init,
keyring_key_length_fetch_init and keyring_key_remove_init. -/
def fetchMask : Nat := VALIDATE_KEY_ID

/-- Validation mask of keyring_key_generate_init. -/
def generateMask : Nat :=
  VALIDATE_KEY_ID ||| VALIDATE_KEY_TYPE ||| VALIDATE_KEY_LENGTH

end KeyringUdf

namespace RedoRing

/-- Modelled from the spec: state of one redo ring buffer (the recently
written / recently closed small buffers whose slot counts are
srv_log_recent_written_size / srv_log_recent_closed_size; the ring
implementation itself is not under src): the producer head LSN and the LSN
up to which prior occupants have been confirmed durably retired. -/
structure RingState where
  head_lsn : Nat
  retired_lsn : Nat
deriving DecidableEq

/-- Total byte capacity of the ring: R slots of slot_size bytes each. -/
def capacity (R slot_size : Nat) : Nat := R * slot_size

/-- Operations on the ring: a producer appending len bytes, or the retire
pass confirming durable retirement up to a given LSN. -/
inductive RingOp where
  | append (len : Nat)
  | retire (upTo : Nat)
deriving DecidableEq

/-- Modelled from the spec: one step of the ring. An append whose write
would let the span head_lsn - retired_lsn exceed R * slot_size blocks (the
state is unchanged and no slot is touched); a retire advances retired_lsn,
never backwards and never past head_lsn. -/
def ringStep (R slot_size : Nat) (s : RingState) : RingOp → RingState
  | RingOp.append len =>
      if s.head_lsn + len - s.retired_lsn ≤ capacity R slot_size then
        { s with head_lsn := s.head_lsn + len }
      else s
  | RingOp.retire upTo =>
      if s.retired_lsn ≤ upTo ∧ upTo ≤ s.head_lsn then
        { s with retired_lsn := upTo }
      else s

/-- Initial ring state: nothing written, nothing outstanding. -/
def initRing : RingState := { head_lsn := 0, retired_lsn := 0 }

/-- Run a sequence of ring operations from the initial state. -/
def ringRun (R slot_size : Nat) (ops : List RingOp) : RingState :=
  ops.foldl (ringStep R slot_size) initRing

/-- The ring invariant: retired_lsn never passes head_lsn and the span of
outstanding LSNs never exceeds the ring capacity. -/
def ringInv (R slot_size : Nat) (s : RingState) : Prop :=
  s.retired_lsn ≤ s.head_lsn ∧
    s.head_lsn - s.retired_lsn ≤ capacity R slot_size

end RedoRing

namespace RedoPipeline

/-- Modelled from the spec: the published progress LSNs of the redo
pipeline (their publication code is not under src). -/
structure LogProgress where
  written_to_storage_lsn : Nat
  flushed_to_disk_lsn : Nat
  closed_lsn : Nat
deriving DecidableEq

/-- A publication of one of the three progress LSNs towards a target. -/
inductive ProgressOp where
  | publishWrite (lsn : Nat)
  | publishFlush (lsn : Nat)
  | publishClose (lsn : Nat)
deriving DecidableEq

/-- Modelled from the spec: CAS-style monotonic non-decreasing publication -
the stored boundary is advanced only when the target is larger, so a
publication never regresses the published value. -/
def progressStep (s : LogProgress) : ProgressOp → LogProgress
  | ProgressOp.publishWrite l =>
      if s.written_to_storage_lsn < l then
        { s with written_to_storage_lsn := l }
      else s
  | ProgressOp.publishFlush l =>
      if s.flushed_to_disk_lsn < l then
        { s with flushed_to_disk_lsn := l }
      else s
  | ProgressOp.publishClose l =>
      if s.closed_lsn < l then
        { s with closed_lsn := l }
      else s

/-- Run a sequence of publications from a starting state; readers observe
the states of this trace in order. -/
def progressRun (s : LogProgress) (ops : List ProgressOp) : LogProgress :=
  ops.foldl progressStep s

end RedoPipeline

namespace WriterShutdown

/-- Modelled from the spec: the redo writer role with its queue of pending
advances (target LSNs in submission order), the published
written_to_storage_lsn, the shared shutdown phase (terminal or not) and
whether the thread handle reports STOPPED (the writer loop itself is not
under src). -/
structure WriterState where
  queue : List Nat
  written_to_storage_lsn : Nat
  shutdown : Bool
  stopped : Bool
deriving DecidableEq

/-- Modelled from the spec: submitting an advance to the writer; once the
shutdown phase is terminal no new work is accepted. -/
def submit (l : Nat) (s : WriterState) : WriterState :=
  if s.shutdown then s else { s with queue := s.queue ++ [l] }

/-- Modelled from the spec: a shutdown request advances the shared phase to
a terminal one. -/
def requestShutdown (s : WriterState) : WriterState :=
  { s with shutdown := true }

/-- Modelled from the spec: one iteration of the writer loop - apply the
next queued advance (publishing written_to_storage_lsn monotonically), and
only when no work remains queued and the observed phase is terminal report
STOPPED. -/
def writerStep (s : WriterState) : WriterState :=
  match s.queue with
  | l :: rest =>
      { s with queue := rest,
               written_to_storage_lsn := max s.written_to_storage_lsn l }
  | [] => if s.shutdown then { s with stopped := true } else s

/-- Modelled from the spec: the writer keeps iterating its loop until the
queue is drained, then performs the final iteration that observes the
terminal phase. -/
def drain (s : WriterState) : WriterState :=
  match h : s.queue with
  | _ :: _ => drain (writerStep s)
  | [] => writerStep s
termination_by s.queue.length
decreasing_by simp [writerStep, h]

end WriterShutdown

namespace Activity

/-- Modelled from the spec: the activity counters of srv_sys (the bodies of
srv_inc_activity_count / srv_check_activity in srv0srv.cc are not under
src): the process-wide activity count and the change-buffer-merge activity
count. -/
structure SrvSys where
  activity_count : Nat
  ibuf_merge_activity_count : Nat
deriving DecidableEq

/-- Modelled from the spec and the header doc: increments the server
activity count; when the bump is caused by the background change buffer
merge the merge activity count is incremented as well. -/
def srv_inc_activity_count (ibuf_merge_activity : Bool) (s : SrvSys) :
    SrvSys :=
  { activity_count := s.activity_count + 1,
    ibuf_merge_activity_count :=
      if ibuf_merge_activity then s.ibuf_merge_activity_count + 1
      else s.ibuf_merge_activity_count }

/-- Modelled from the spec and the header doc: whether any activity
happened since the old snapshot, computed as a delta between snapshots and
never from the absolute value; with a non-default old merge activity count
(the some case, standing for a value other than ULINT_UNDEFINED),
merge-only activity is discounted. -/
def srv_check_activity (s : SrvSys) (old_activity_count : Nat)
    (old_ibuf_merge_activity_count : Option Nat) : Bool :=
  match old_ibuf_merge_activity_count with
  | none => s.activity_count ≠ old_activity_count
  | some old_ibuf =>
      s.activity_count - old_activity_count >
        s.ibuf_merge_activity_count - old_ibuf

end Activity

namespace WaitSlot

/-- The srv_slot_t fields relevant to the wait-slot claims (from
srv0srv.h): whether the slot is in use, whether its occupant is suspended
waiting on the slot event, and the reservation number stored at reserve
time. -/
structure Slot where
  in_use : Bool
  suspended : Bool
  reservation_no : Nat
deriving DecidableEq

/-- Modelled from the spec: the wait-slot table state for one slot - the
slot and the global lock_wait_table_reservations counter from which
reservation numbers are drawn (lock0wait.cc is not under src). -/
structure TableState where
  reservations : Nat
  slot : Slot
deriving DecidableEq

/-- Modelled from the spec: lock_wait_table_reserve_slot stores the current
value of lock_wait_table_reservations into the slot and increments the
counter, so numbers assigned at successive acquisitions strictly
increase. -/
def reserveSlot (t : TableState) : TableState :=
  { reservations := t.reservations + 1,
    slot := { in_use := true, suspended := true,
              reservation_no := t.reservations } }

/-- Modelled from the spec: releasing the slot when its wait resolves. -/
def releaseSlot (t : TableState) : TableState :=
  { t with slot := { t.slot with in_use := false, suspended := false } }

/-- Modelled from the spec: a wake signal tagged with reservation number g
is acted on only when the slot is in use, suspended, and its stored
reservation number equals g as re-checked at wake time; a stale tag is
discarded and the state is unchanged. -/
def wake (g : Nat) (t : TableState) : TableState :=
  if t.slot.in_use = true ∧ t.slot.suspended = true ∧
      t.slot.reservation_no = g then
    { t with slot := { t.slot with suspended := false } }
  else t

end WaitSlot

namespace ReleaseThreads

/-- Thread types from enum srv_thread_type in srv0srv.h. -/
inductive srv_thread_type where
  | SRV_NONE
  | SRV_WORKER
  | SRV_PURGE
  | SRV_MASTER
deriving DecidableEq

/-- One entry of the server thread table, as consulted by
srv_release_threads: its type, whether the entry is in use and whether its
thread is suspended. -/
structure ThreadSlot where
  type : srv_thread_type
  in_use : Bool
  suspended : Bool
deriving DecidableEq

/-- Whether a slot holds a suspended thread of the given type. -/
def isSuspendedOfType (t : srv_thread_type) (s : ThreadSlot) : Bool :=
  s.in_use && s.suspended && (s.type == t)

/-- Modelled from the spec and the header doc: srv_release_threads scans
the thread table, waking suspended threads of the requested type until n
have been woken, and returns the number actually woken together with the
updated table; the number may be less than n if not enough threads were
suspended at the moment of the call. -/
def srv_release_threads (t : srv_thread_type) (n : Nat) :
    List ThreadSlot → Nat × List ThreadSlot
  | [] => (0, [])
  | s :: rest =>
      if n = 0 then (0, s :: rest)
      else if isSuspendedOfType t s then
        let r := srv_release_threads t (n - 1) rest
        (r.1 + 1, { s with suspended := false } :: r.2)
      else
        let r := srv_release_threads t n rest
        (r.1, s :: r.2)

/-- Number of suspended threads of the given type in the table. -/
def suspendedCount (t : srv_thread_type) (slots : List ThreadSlot) : Nat :=
  slots.countP (isSuspendedOfType t)

end ReleaseThreads

namespace WorkerPool

/-- Modelled from the spec: state of a worker pool - the queue of submitted
and not yet assigned work units, the per-worker current assignment (none is
idle; index 0 is the coordinator acting as a worker) and the units
completed so far (the queue/worker code is not under src). -/
structure PoolState where
  queue : List Nat
  workers : List (Option Nat)
  completed : List Nat
deriving DecidableEq

/-- Scheduler choices of an interleaving: the coordinator assigns the head
of the queue to worker w, or worker w completes its assigned unit. -/
inductive PoolOp where
  | assign (w : Nat)
  | complete (w : Nat)
deriving DecidableEq

/-- Modelled from the spec: one interleaving step. An assign hands the head
of the queue to worker w only when w exists and is idle; a complete moves
worker w's assigned unit to completed and makes w idle again; a choice that
is not enabled does nothing. -/
def poolStep (s : PoolState) : PoolOp → PoolState
  | PoolOp.assign w =>
      match s.queue with
      | [] => s
      | u :: rest =>
          if w < s.workers.length ∧ s.workers.getD w none = none then
            { s with queue := rest, workers := s.workers.set w (some u) }
          else s
  | PoolOp.complete w =>
      match s.workers.getD w none with
      | some u =>
          { s with workers := s.workers.set w none,
                   completed := u :: s.completed }
      | none => s

/-- The units currently assigned to workers. -/
def assigned (s : PoolState) : List Nat := s.workers.filterMap id

/-- Every unit owned by the pool, in some order. -/
def poolUnits (s : PoolState) : List Nat :=
  s.queue ++ assigned s ++ s.completed

/-- Initial pool state: the submitted batches queued and n workers, all
idle. -/
def initPool (batches : List Nat) (n : Nat) : PoolState :=
  { queue := batches, workers := List.replicate n none, completed := [] }

/-- Run an interleaving of scheduler choices. -/
def poolRun (batches : List Nat) (n : Nat) (ops : List PoolOp) : PoolState :=
  ops.foldl poolStep (initPool batches n)

/-- A concrete interleaving for a pool of 4 workers and 10 batches:
assignments and completions overlap across all four workers and every
batch ends completed. -/
def exampleOps : List PoolOp :=
  [PoolOp.assign 0, PoolOp.assign 1, PoolOp.assign 2, PoolOp.assign 3,
   PoolOp.complete 1, PoolOp.assign 1, PoolOp.complete 0, PoolOp.assign 0,
   PoolOp.complete 2, PoolOp.assign 2, PoolOp.complete 3, PoolOp.assign 3,
   PoolOp.complete 0, PoolOp.assign 0, PoolOp.complete 1, PoolOp.assign 1,
   PoolOp.complete 2, PoolOp.complete 3, PoolOp.complete 0,
   PoolOp.complete 1]

end WorkerPool

namespace ThreadRegistry

/-- Lifecycle state of one thread handle. -/
inductive ThreadState where
  | NOT_STARTED
  | RUNNING
  | DRAINING
  | STOPPED
deriving DecidableEq

/-- Modelled from the spec: one worker pool of the thread registry (purge /
page cleaner / eviction): the configured worker count, the shared-state id
wrapped by the pool coordinator handle, the shared-state ids of the pool
array entries, and the lifecycle state stored in each shared state (the
startup code populating Srv_threads is not under src). -/
structure Pool where
  workers_n : Nat
  coordinator : Nat
  workers : List Nat
  threadState : Nat → ThreadState

/-- Modelled from the spec: initialization of a pool sized by the
configured count n - the array has exactly n entries, and its entry at
index 0 is the same shared state as the coordinator handle (the coordinator
is simultaneously a worker). -/
def initPool (n : Nat) : Pool :=
  { workers_n := n,
    coordinator := 0,
    workers := List.range n,
    threadState := fun _ => ThreadState.NOT_STARTED }

/-- Whether any worker of the pool is RUNNING. -/
def anyRunning (p : Pool) : Bool :=
  p.workers.any (fun i => p.threadState i == ThreadState.RUNNING)

/-- Registry operations on a pool: re-initialize it from a (new) configured
count, or record a lifecycle transition of one shared state. -/
inductive RegOp where
  | init (n : Nat)
  | setState (i : Nat) (st : ThreadState)

/-- Modelled from the spec: one registry step. Re-initializing (the only
operation that can change the handle array) requires a full quiesce: it is
refused while any worker of the pool is RUNNING; lifecycle transitions
never touch the array. -/
def regStep (p : Pool) : RegOp → Pool
  | RegOp.init n => if anyRunning p then p else initPool n
  | RegOp.setState i st =>
      { p with threadState :=
          fun j => if j = i then st else p.threadState j }

/-- A concrete pool with a RUNNING worker, used to exercise the quiesce
guard. -/
def runPoolExample : Pool :=
  { workers_n := 2,
    coordinator := 0,
    workers := [0, 1],
    threadState := fun _ => ThreadState.RUNNING }

end ThreadRegistry

theorem popcount_digits_aux (n : Nat) :
    KeyringUdf.get_args_count_from_validation_request n =
      (Nat.digits 2 n).sum := by
  induction n using Nat.strong_induction_on with
  | _ n ih =>
    unfold KeyringUdf.get_args_count_from_validation_request
    split
    · rename_i h; subst h; simp
    · rename_i h
      rw [Nat.digits_def' (by norm_num : (1 : Nat) < 2)
          (Nat.pos_of_ne_zero h), List.sum_cons,
        ih (n / 2) (Nat.div_lt_self (Nat.pos_of_ne_zero h) (by omega))]
      rcases Nat.mod_two_eq_zero_or_one n with h2 | h2 <;> simp [h2]

theorem gacv_step (m : Nat) (hm : m ≠ 0) :
    KeyringUdf.get_args_count_from_validation_request m =
      (if m % 2 = 1 then 1 else 0) +
        KeyringUdf.get_args_count_from_validation_request (m / 2) := by
  rw [KeyringUdf.get_args_count_from_validation_request]
  simp [hm]

theorem gacv_zero :
    KeyringUdf.get_args_count_from_validation_request 0 = 0 := by
  rw [KeyringUdf.get_args_count_from_validation_request]
  simp

/-- C10: get_args_count_from_validation_request returns the number of set
bits (the sum of the binary digits) of any non-negative mask, and so each
keyring UDF expects exactly as many arguments as validation flags it
requests: 3 for keyring_key_store, 1 for the fetch/remove family, 3 for
keyring_key_generate. -/
theorem get_args_count_is_popcount :
    (∀ n : Nat, KeyringUdf.get_args_count_from_validation_request n =
      (Nat.digits 2 n).sum) ∧
    KeyringUdf.get_args_count_from_validation_request KeyringUdf.storeMask
      = 3 ∧
    KeyringUdf.get_args_count_from_validation_request KeyringUdf.fetchMask
      = 1 ∧
    KeyringUdf.get_args_count_from_validation_request KeyringUdf.generateMask
      = 3 := by
  have hstore : KeyringUdf.storeMask = 7 := by decide
  have hfetch : KeyringUdf.fetchMask = 2 := by decide
  have hgen : KeyringUdf.generateMask = 14 := by decide
  refine ⟨popcount_digits_aux, ?_, ?_, ?_⟩
  · rw [hstore, gacv_step 7 (by omega)]
    norm_num
    rw [gacv_step 3 (by omega)]
    norm_num
    rw [gacv_step 1 (by omega)]
    norm_num
    rw [gacv_zero]
  · rw [hfetch, gacv_step 2 (by omega)]
    norm_num
    rw [gacv_step 1 (by omega)]
    norm_num
    rw [gacv_zero]
  · rw [hgen, gacv_step 14 (by omega)]
    norm_num
    rw [gacv_step 7 (by omega)]
    norm_num
    rw [gacv_step 3 (by omega)]
    norm_num
    rw [gacv_step 1 (by omega)]
    norm_num
    rw [gacv_zero]

/-- C4: the activity counter is checked by delta, never by absolute value:
after srv_inc_activity_count runs exactly 5 times from a snapshot c0,
srv_check_activity against c0 reports activity and against c0 + 5 reports
none. -/
theorem activity_checked_by_delta (c0 i0 : Nat) :
    (Activity.srv_check_activity
      (Activity.srv_inc_activity_count false
        (Activity.srv_inc_activity_count false
          (Activity.srv_inc_activity_count false
            (Activity.srv_inc_activity_count false
              (Activity.srv_inc_activity_count false
                { activity_count := c0, ibuf_merge_activity_count := i0 })))))
      c0 none = true) ∧
    (Activity.srv_check_activity
      (Activity.srv_inc_activity_count false
        (Activity.srv_inc_activity_count false
          (Activity.srv_inc_activity_count false
            (Activity.srv_inc_activity_count false
              (Activity.srv_inc_activity_count false
                { activity_count := c0, ibuf_merge_activity_count := i0 })))))
      (c0 + 5) none = false) := by
  simp [Activity.srv_inc_activity_count, Activity.srv_check_activity]
  omega

/-- C5: the reservation number is assigned monotonically increasing at slot
acquisition and is re-checked at wake time: a slot acquired with number g,
released, and re-acquired carries g + 1, and a wake signal tagged g that
arrives after the re-acquisition is discarded, leaving the new occupant
untouched. -/
theorem wait_slot_reservation_aba (t : WaitSlot.TableState) :
    (WaitSlot.reserveSlot t).slot.reservation_no = t.reservations ∧
    (WaitSlot.reserveSlot (WaitSlot.releaseSlot
        (WaitSlot.reserveSlot t))).slot.reservation_no =
      (WaitSlot.reserveSlot t).slot.reservation_no + 1 ∧
    (WaitSlot.reserveSlot t).slot.reservation_no <
      (WaitSlot.reserveSlot (WaitSlot.releaseSlot
        (WaitSlot.reserveSlot t))).slot.reservation_no ∧
    WaitSlot.wake (WaitSlot.reserveSlot t).slot.reservation_no
        (WaitSlot.reserveSlot (WaitSlot.releaseSlot
          (WaitSlot.reserveSlot t))) =
      WaitSlot.reserveSlot (WaitSlot.releaseSlot (WaitSlot.reserveSlot t)) := by
  simp [WaitSlot.reserveSlot, WaitSlot.releaseSlot, WaitSlot.wake]

/-- C2: the published progress LSNs are monotonic non-decreasing: along any
sequence of publications, a reader never observes written_to_storage_lsn,
flushed_to_disk_lsn or closed_lsn go backward. -/
theorem progress_lsns_never_regress (s : RedoPipeline.LogProgress)
    (ops : List RedoPipeline.ProgressOp) :
    s.written_to_storage_lsn ≤
      (RedoPipeline.progressRun s ops).written_to_storage_lsn ∧
    s.flushed_to_disk_lsn ≤
      (RedoPipeline.progressRun s ops).flushed_to_disk_lsn ∧
    s.closed_lsn ≤ (RedoPipeline.progressRun s ops).closed_lsn := by
  induction ops generalizing s with
  | nil => simp [RedoPipeline.progressRun]
  | cons op rest ih =>
    have h1 := ih (RedoPipeline.progressStep s op)
    have h2 : s.written_to_storage_lsn ≤
        (RedoPipeline.progressStep s op).written_to_storage_lsn ∧
        s.flushed_to_disk_lsn ≤
          (RedoPipeline.progressStep s op).flushed_to_disk_lsn ∧
        s.closed_lsn ≤ (RedoPipeline.progressStep s op).closed_lsn := by
      cases op <;> simp only [RedoPipeline.progressStep] <;> split <;>
        simp_all <;> omega
    simp only [RedoPipeline.progressRun, List.foldl_cons] at h1 ⊢
    exact ⟨le_trans h2.1 h1.1, le_trans h2.2.1 h1.2.1,
      le_trans h2.2.2 h1.2.2⟩

theorem writer_drain_aux (q : List Nat) (w : Nat) (b : Bool) :
    WriterShutdown.drain
        { queue := q, written_to_storage_lsn := w, shutdown := true,
          stopped := b } =
      { queue := [], written_to_storage_lsn := q.foldl max w,
        shutdown := true, stopped := true } := by
  induction q generalizing w b with
  | nil =>
    unfold WriterShutdown.drain
    simp [WriterShutdown.writerStep]
  | cons l rest ih =>
    unfold WriterShutdown.drain
    simp only [WriterShutdown.writerStep, List.foldl_cons]
    exact ih (max w l) b

/-- C3: if shutdown is requested while the writer has queued advances, the
writer drains every already-queued advance (written_to_storage_lsn reflects
all of them) before its handle reports STOPPED, and an advance submitted
after the shutdown request is not accepted. -/
theorem shutdown_drains_queued_advances (q : List Nat) (w l : Nat) :
    (WriterShutdown.drain (WriterShutdown.requestShutdown
        { queue := q, written_to_storage_lsn := w, shutdown := false,
          stopped := false })).written_to_storage_lsn = q.foldl max w ∧
    (WriterShutdown.drain (WriterShutdown.requestShutdown
        { queue := q, written_to_storage_lsn := w, shutdown := false,
          stopped := false })).stopped = true ∧
    (WriterShutdown.drain (WriterShutdown.requestShutdown
        { queue := q, written_to_storage_lsn := w, shutdown := false,
          stopped := false })).queue = [] ∧
    WriterShutdown.submit l (WriterShutdown.requestShutdown
        { queue := q, written_to_storage_lsn := w, shutdown := false,
          stopped := false }) =
      WriterShutdown.requestShutdown
        { queue := q, written_to_storage_lsn := w, shutdown := false,
          stopped := false } := by
  simp [WriterShutdown.requestShutdown, WriterShutdown.submit,
    writer_drain_aux]

theorem ringStep_preserves (R sz : Nat) (s : RedoRing.RingState)
    (op : RedoRing.RingOp) (h : RedoRing.ringInv R sz s) :
    RedoRing.ringInv R sz (RedoRing.ringStep R sz s op) := by
  obtain ⟨h1, h2⟩ := h
  cases op <;> simp only [RedoRing.ringStep] <;> split <;>
    · simp only [RedoRing.ringInv] at *
      generalize RedoRing.capacity R sz = C at *
      constructor <;> omega

/-- C1: along every sequence of appends and retirements the span of
outstanding not-yet-retired LSNs (head_lsn - retired_lsn) never exceeds
R times the slot size, and an append whose write would exceed that bound
blocks, leaving the ring unchanged rather than overwriting an unretired
slot. -/
theorem ring_no_unretired_overwrite (R sz len : Nat)
    (ops : List RedoRing.RingOp) (s : RedoRing.RingState) :
    RedoRing.ringInv R sz (RedoRing.ringRun R sz ops) ∧
    (RedoRing.capacity R sz < s.head_lsn + len - s.retired_lsn →
      RedoRing.ringStep R sz s (RedoRing.RingOp.append len) = s) := by
  constructor
  · have hfold : ∀ (l : List RedoRing.RingOp) (st : RedoRing.RingState),
        RedoRing.ringInv R sz st →
          RedoRing.ringInv R sz (l.foldl (RedoRing.ringStep R sz) st) := by
      intro l
      induction l with
      | nil => intro st h; exact h
      | cons op rest ih =>
          intro st h
          exact ih _ (ringStep_preserves R sz st op h)
    exact hfold ops RedoRing.initRing
      (by simp [RedoRing.ringInv, RedoRing.initRing])
  · intro hgt
    simp only [RedoRing.ringStep]
    rw [if_neg (not_le.mpr hgt)]

theorem release_threads_aux (t : ReleaseThreads.srv_thread_type) :
    ∀ (slots : List ReleaseThreads.ThreadSlot) (n : Nat),
      (ReleaseThreads.srv_release_threads t n slots).1 =
        min n (ReleaseThreads.suspendedCount t slots) := by
  intro slots
  induction slots with
  | nil =>
    intro n
    simp [ReleaseThreads.srv_release_threads, ReleaseThreads.suspendedCount]
  | cons s rest ih =>
    intro n
    by_cases hn : n = 0
    · subst hn
      simp [ReleaseThreads.srv_release_threads]
    · by_cases hm : ReleaseThreads.isSuspendedOfType t s
      · simp only [ReleaseThreads.srv_release_threads, if_neg hn, hm,
          if_true, ReleaseThreads.suspendedCount, List.countP_cons, ih]
        omega
      · simp only [ReleaseThreads.srv_release_threads, if_neg hn,
          ReleaseThreads.suspendedCount, List.countP_cons, ih]
        simp [hm]

/-- C6: srv_release_threads wakes at most n suspended threads of the given
type: it returns exactly the minimum of n and the number of threads of the
type suspended at the moment of the call, hence never more than n and
strictly fewer whenever fewer than n are suspended - a best-effort
contract. -/
theorem release_threads_best_effort (t : ReleaseThreads.srv_thread_type)
    (n : Nat) (slots : List ReleaseThreads.ThreadSlot) :
    (ReleaseThreads.srv_release_threads t n slots).1 =
      min n (ReleaseThreads.suspendedCount t slots) ∧
    (ReleaseThreads.srv_release_threads t n slots).1 ≤ n := by
  refine ⟨release_threads_aux t slots n, ?_⟩
  rw [release_threads_aux t slots n]
  exact Nat.min_le_left _ _

theorem ring_no_unretired_overwrite_witness :
    RedoRing.ringInv 2 4
      (RedoRing.ringRun 2 4
        [RedoRing.RingOp.append 5, RedoRing.RingOp.retire 3]) ∧
    RedoRing.capacity 2 4 < 9 + 5 - 0 ∧
    RedoRing.ringStep 2 4 { head_lsn := 9, retired_lsn := 0 }
        (RedoRing.RingOp.append 5) =
      { head_lsn := 9, retired_lsn := 0 } :=
  ⟨(ring_no_unretired_overwrite 2 4 5
      [RedoRing.RingOp.append 5, RedoRing.RingOp.retire 3]
      { head_lsn := 9, retired_lsn := 0 }).1,
   by decide,
   (ring_no_unretired_overwrite 2 4 5
      [RedoRing.RingOp.append 5, RedoRing.RingOp.retire 3]
      { head_lsn := 9, retired_lsn := 0 }).2 (by decide)⟩

/-- C8: each worker pool handle array has length equal to the configured
worker count at initialization, the array cannot change while any worker of
the pool is RUNNING (re-initialization requires a full quiesce and
lifecycle transitions never touch the array), and index 0 of the pool array
is the same shared state as the pool coordinator handle, which is thereby
simultaneously a worker. -/
theorem pool_array_length_and_coordinator (n : Nat)
    (p : ThreadRegistry.Pool) (op : ThreadRegistry.RegOp) :
    (ThreadRegistry.initPool n).workers.length = n ∧
    (ThreadRegistry.initPool n).workers_n = n ∧
    (0 < n →
      (ThreadRegistry.initPool n).workers.getD 0 1 =
        (ThreadRegistry.initPool n).coordinator ∧
      (ThreadRegistry.initPool n).coordinator ∈
        (ThreadRegistry.initPool n).workers) ∧
    (ThreadRegistry.anyRunning p = true →
      (ThreadRegistry.regStep p op).workers = p.workers) := by
  refine ⟨by simp [ThreadRegistry.initPool],
    by simp [ThreadRegistry.initPool], ?_, ?_⟩
  · intro hn
    constructor
    · simp only [ThreadRegistry.initPool, List.getD_eq_getElem?_getD,
        List.getElem?_range hn, Option.getD_some]
    · simp [ThreadRegistry.initPool, List.mem_range, hn]
  · intro hr
    cases op with
    | init m => simp [ThreadRegistry.regStep, hr]
    | setState i st => simp [ThreadRegistry.regStep]

theorem pool_array_length_and_coordinator_witness :
    (0 < 4 ∧
      (ThreadRegistry.initPool 4).workers.getD 0 1 =
        (ThreadRegistry.initPool 4).coordinator ∧
      (ThreadRegistry.initPool 4).coordinator ∈
        (ThreadRegistry.initPool 4).workers) ∧
    ThreadRegistry.anyRunning ThreadRegistry.runPoolExample = true ∧
    (ThreadRegistry.regStep ThreadRegistry.runPoolExample
        (ThreadRegistry.RegOp.init 7)).workers =
      ThreadRegistry.runPoolExample.workers :=
  ⟨⟨by decide,
    (pool_array_length_and_coordinator 4 ThreadRegistry.runPoolExample
      (ThreadRegistry.RegOp.init 7)).2.2.1 (by decide)⟩,
   by rfl,
   (pool_array_length_and_coordinator 4 ThreadRegistry.runPoolExample
      (ThreadRegistry.RegOp.init 7)).2.2.2 (by rfl)⟩

theorem filterMap_set_some_of_none (l : List (Option Nat)) (w : Nat)
    (u : Nat) (hw : w < l.length) (h : l.getD w none = none) :
    List.Perm ((l.set w (some u)).filterMap id) (u :: l.filterMap id) := by
  induction l generalizing w with
  | nil => simp at hw
  | cons a rest ih =>
    cases w with
    | zero =>
      simp only [List.getD_cons_zero] at h
      subst h
      simp
    | succ m =>
      simp only [List.set]
      cases a with
      | none =>
        simpa using ih m (by simpa using hw) (by simpa using h)
      | some v =>
        have hih := ih m (by simpa using hw) (by simpa using h)
        simpa using (hih.cons v).trans (List.Perm.swap u v _)

theorem filterMap_set_none_of_some (l : List (Option Nat)) (w : Nat)
    (u : Nat) (h : l.getD w none = some u) :
    List.Perm (l.filterMap id) (u :: (l.set w none).filterMap id) := by
  induction l generalizing w with
  | nil => simp [List.getD] at h
  | cons a rest ih =>
    cases w with
    | zero =>
      simp only [List.getD_cons_zero] at h
      subst h
      simp
    | succ m =>
      simp only [List.set]
      cases a with
      | none => simpa using ih m (by simpa using h)
      | some v =>
        have hih := ih m (by simpa using h)
        simpa using (hih.cons v).trans (List.Perm.swap u v _)

theorem poolStep_units_perm (s : WorkerPool.PoolState)
    (op : WorkerPool.PoolOp) :
    List.Perm (WorkerPool.poolUnits (WorkerPool.poolStep s op))
      (WorkerPool.poolUnits s) := by
  obtain ⟨q, ws, comp⟩ := s
  cases op with
  | assign w =>
    cases q with
    | nil => simp [WorkerPool.poolStep]
    | cons u rest =>
      by_cases hc : w < ws.length ∧ ws.getD w none = none
      · simp only [WorkerPool.poolStep, if_pos hc]
        simp only [WorkerPool.poolUnits, WorkerPool.assigned]
        refine List.Perm.append_right comp ?_
        have hA := filterMap_set_some_of_none ws w u hc.1 hc.2
        have hstep1 : List.Perm (rest ++ (ws.set w (some u)).filterMap id)
            (rest ++ (u :: ws.filterMap id)) :=
          List.Perm.append_left rest hA
        have hstep2 : List.Perm (rest ++ (u :: ws.filterMap id))
            (u :: (rest ++ ws.filterMap id)) := List.perm_middle
        exact hstep1.trans hstep2
      · simp only [WorkerPool.poolStep, if_neg hc]
        exact List.Perm.refl _
  | complete w =>
    cases hg : ws.getD w none with
    | none =>
      simp only [WorkerPool.poolStep, hg]
      exact List.Perm.refl _
    | some u =>
      simp only [WorkerPool.poolStep, hg]
      simp only [WorkerPool.poolUnits, WorkerPool.assigned]
      have hB := filterMap_set_none_of_some ws w u hg
      have h2 : List.Perm (q ++ ws.filterMap id)
          (u :: (q ++ (ws.set w none).filterMap id)) :=
        (List.Perm.append_left q hB).trans List.perm_middle
      have h3 : List.Perm ((q ++ (ws.set w none).filterMap id) ++ (u :: comp))
          (u :: ((q ++ (ws.set w none).filterMap id) ++ comp)) :=
        List.perm_middle
      exact h3.trans (List.Perm.append_right comp h2.symm)

theorem poolRun_units_perm (batches : List Nat) (n : Nat)
    (ops : List WorkerPool.PoolOp) :
    List.Perm (WorkerPool.poolUnits (WorkerPool.poolRun batches n ops))
      batches := by
  have hfold : ∀ (l : List WorkerPool.PoolOp) (s : WorkerPool.PoolState),
      List.Perm (WorkerPool.poolUnits (l.foldl WorkerPool.poolStep s))
        (WorkerPool.poolUnits s) := by
    intro l
    induction l with
    | nil => intro s; exact List.Perm.refl _
    | cons op restOps ih =>
        intro s
        exact (ih _).trans (poolStep_units_perm s op)
  have h0 : WorkerPool.poolUnits (WorkerPool.initPool batches n) =
      batches ++ (List.replicate n (none : Option Nat)).filterMap id := by
    simp [WorkerPool.poolUnits, WorkerPool.initPool, WorkerPool.assigned]
  have hrep : (List.replicate n (none : Option Nat)).filterMap id = [] := by
    induction n with
    | zero => rfl
    | succ m ihm => simpa [List.replicate] using ihm
  have := hfold ops (WorkerPool.initPool batches n)
  rw [h0, hrep, List.append_nil] at this
  exact this

/-- C7: each submitted work unit is assigned to one worker and acknowledged
exactly once under any interleaving: whenever an interleaving of a pool
ends with the queue empty and every worker idle, the completed units are a
permutation of the submitted batches - so a pool of 4 workers given 10
batches finishes with exactly 10 completions, one per batch. -/
theorem worker_pool_exactly_once (batches : List Nat) (n : Nat)
    (ops : List WorkerPool.PoolOp)
    (hq : (WorkerPool.poolRun batches n ops).queue = [])
    (hidle : WorkerPool.assigned (WorkerPool.poolRun batches n ops) = []) :
    List.Perm (WorkerPool.poolRun batches n ops).completed batches ∧
    (WorkerPool.poolRun batches n ops).completed.length =
      batches.length := by
  have h := poolRun_units_perm batches n ops
  rw [WorkerPool.poolUnits, hq, hidle] at h
  simp only [List.nil_append] at h
  exact ⟨h, h.length_eq⟩

theorem worker_pool_exactly_once_witness :
    (WorkerPool.poolRun [0, 1, 2, 3, 4, 5, 6, 7, 8, 9] 4
      WorkerPool.exampleOps).queue = [] ∧
    WorkerPool.assigned (WorkerPool.poolRun [0, 1, 2, 3, 4, 5, 6, 7, 8, 9] 4
      WorkerPool.exampleOps) = [] ∧
    (List.Perm (WorkerPool.poolRun [0, 1, 2, 3, 4, 5, 6, 7, 8, 9] 4
        WorkerPool.exampleOps).completed [0, 1, 2, 3, 4, 5, 6, 7, 8, 9] ∧
      (WorkerPool.poolRun [0, 1, 2, 3, 4, 5, 6, 7, 8, 9] 4
        WorkerPool.exampleOps).completed.length = 10) :=
  ⟨by decide, by decide,
   worker_pool_exactly_once [0, 1, 2, 3, 4, 5, 6, 7, 8, 9] 4
     WorkerPool.exampleOps (by decide) (by decide)⟩

theorem validate_rejects (ctx : KeyringUdf.ValidateCtx)
    (args : List KeyringUdf.UdfArg) (expected_arg_count : Nat)
    (to_validate : Nat)
    (hcond : ctx.is_keyring_udf_initialized = false ∨
      (ctx.secCtxFail = false ∧
        (ctx.has_current_user_execute_privilege = false ∨
          args.length ≠ expected_arg_count ∨
          (to_validate &&& KeyringUdf.VALIDATE_KEY_ID ≠ 0 ∧
            KeyringUdf.argBadString args 0 = true) ∨
          (to_validate &&& KeyringUdf.VALIDATE_KEY_TYPE ≠ 0 ∧
            KeyringUdf.argBadString args 1 = true) ∨
          (to_validate &&& KeyringUdf.VALIDATE_KEY_LENGTH ≠ 0 ∧
            (KeyringUdf.argBadInt args 2 = true ∨
              (args.getD 2 KeyringUdf.defaultArg).intVal >
                KeyringUdf.MAX_KEYRING_UDF_KEY_TEXT_LENGTH)) ∨
          (to_validate &&& KeyringUdf.VALIDATE_KEY ≠ 0 ∧
            KeyringUdf.argBadString args 2 = true)))) :
    ∃ m, KeyringUdf.validate ctx args expected_arg_count to_validate =
      KeyringUdf.ValidateResult.fail (some m) := by
  unfold KeyringUdf.validate
  split_ifs with h1 h2 h3 h4 h5 h6 h7 h8 h9
  any_goals exact ⟨_, rfl⟩
  · rcases hcond with h | ⟨hsec, _⟩
    · exact absurd h h1
    · rw [hsec] at h2
      exact absurd h2 (by simp)
  · rcases hcond with h | ⟨hsec, hrest⟩
    · exact absurd h h1
    · rcases hrest with h | h | h | h | h | h
      · exact absurd h h3
      · exact absurd h h4
      · exact absurd h h5
      · exact absurd h h6
      · obtain ⟨hf, hor⟩ := h
        rcases hor with hbad | hlen
        · exact absurd ⟨hf, hbad⟩ h7
        · exact absurd ⟨hf, hlen⟩ h8
      · exact absurd h h9

/-- C9: every keyring UDF init function (each is keyring_udf_func_init at
its validation mask) fails - returns true with a diagnostic message - and
the key-store service is never reached, whenever the keyring_udf plugin is
not initialized, or, with the security context available, the invoking user
lacks the EXECUTE privilege, the argument count differs from the number of
requested validation flags, a validated argument is null or of the wrong
type, or a validated key length exceeds
MAX_KEYRING_UDF_KEY_TEXT_LENGTH (16384). -/
theorem keyring_udf_init_rejects (ctx : KeyringUdf.ValidateCtx)
    (args : List KeyringUdf.UdfArg) (to_validate : Nat)
    (allocSucceeds : Bool) (sz : Nat)
    (hcond : ctx.is_keyring_udf_initialized = false ∨
      (ctx.secCtxFail = false ∧
        (ctx.has_current_user_execute_privilege = false ∨
          args.length ≠
            KeyringUdf.get_args_count_from_validation_request to_validate ∨
          (to_validate &&& KeyringUdf.VALIDATE_KEY_ID ≠ 0 ∧
            KeyringUdf.argBadString args 0 = true) ∨
          (to_validate &&& KeyringUdf.VALIDATE_KEY_TYPE ≠ 0 ∧
            KeyringUdf.argBadString args 1 = true) ∨
          (to_validate &&& KeyringUdf.VALIDATE_KEY_LENGTH ≠ 0 ∧
            (KeyringUdf.argBadInt args 2 = true ∨
              (args.getD 2 KeyringUdf.defaultArg).intVal >
                KeyringUdf.MAX_KEYRING_UDF_KEY_TEXT_LENGTH)) ∨
          (to_validate &&& KeyringUdf.VALIDATE_KEY ≠ 0 ∧
            KeyringUdf.argBadString args 2 = true)))) :
    (KeyringUdf.keyring_udf_func_init ctx args to_validate allocSucceeds
      sz).failed = true ∧
    (KeyringUdf.keyring_udf_func_init ctx args to_validate allocSucceeds
      sz).message.isSome = true ∧
    KeyringUdf.reaches_key_store_service ctx args to_validate allocSucceeds
      sz = false := by
  obtain ⟨m, hm⟩ := validate_rejects ctx args
    (KeyringUdf.get_args_count_from_validation_request to_validate)
    to_validate hcond
  simp [KeyringUdf.keyring_udf_func_init,
    KeyringUdf.reaches_key_store_service, hm]

theorem keyring_udf_init_rejects_witness :
    ((⟨true, false, false⟩ : KeyringUdf.ValidateCtx).secCtxFail = false ∧
      (⟨true, false, false⟩ :
        KeyringUdf.ValidateCtx).has_current_user_execute_privilege =
          false) ∧
    (KeyringUdf.keyring_udf_func_init ⟨true, false, false⟩ [] 7 true
      0).failed = true ∧
    (KeyringUdf.keyring_udf_func_init ⟨true, false, false⟩ [] 7 true
      0).message.isSome = true ∧
    KeyringUdf.reaches_key_store_service ⟨true, false, false⟩ [] 7 true
      0 = false :=
  ⟨⟨rfl, rfl⟩,
   keyring_udf_init_rejects ⟨true, false, false⟩ [] 7 true 0
     (Or.inr ⟨rfl, Or.inl rfl⟩)⟩
